import Mathlib

/-!
Verification of the MotiaDev/motia-docs interactive components.

This file gives a shallow embedding, in Lean 4, of the small interactive
parts of the documentation site:

* `extractYouTubeId` and `VideoCard` (the `VideoShowcase` grid);
* the `VideoPlayer` analytics state machine (play / pause / timeupdate /
  ended handlers, milestone dedup sets, fullscreen toggle);
* the docs catch-all route (`Page` and `generateMetadata`);
* the `ViewOptions` AI-assistant deep links of `page-actions.tsx`;
* the `trackEvent` wrapper of `usePlausibleTracking`.

Each definition is translated from the corresponding TypeScript source;
the theorems at the end of the file settle the specification claims.
-/

namespace MotiaDocs

/-! ## VideoShowcase: `extractYouTubeId`

The TypeScript source tries two regular expressions in order:

  pattern 1: `(?:youtube\.com\/watch\?v=|youtu\.be\/|youtube\.com\/embed\/)([^&\n?#]+)`
  pattern 2: `youtube\.com\/watch\?.*v=([^&\n?#]+)`

We embed JavaScript regex matching for these two concrete patterns as
functions on `List Char`.  `String.match` scans start positions left to
right; alternatives are tried in order at each position; the capture
group `[^&\n?#]+` is a greedy non-empty run of characters outside the
class; `.` does not match a newline and `.*` is greedy (so pattern 2
captures at the rightmost feasible `v=`).
-/

/-- Characters excluded by the capture class `[^&\n?#]`. -/
def isIdChar (c : Char) : Bool :=
  !(c == '&' || c == '\n' || c == '?' || c == '#')

/-- The literal alternative `youtube\.com\/watch\?v=` of pattern 1. -/
def watchMarker : List Char :=
  ['y', 'o', 'u', 't', 'u', 'b', 'e', '.', 'c', 'o', 'm', '/', 'w', 'a', 't', 'c', 'h', '?', 'v', '=']

/-- The literal alternative `youtu\.be\/` of pattern 1. -/
def beMarker : List Char :=
  ['y', 'o', 'u', 't', 'u', '.', 'b', 'e', '/']

/-- The literal alternative `youtube\.com\/embed\/` of pattern 1. -/
def embedMarker : List Char :=
  ['y', 'o', 'u', 't', 'u', 'b', 'e', '.', 'c', 'o', 'm', '/', 'e', 'm', 'b', 'e', 'd', '/']

/-- The literal head `youtube\.com\/watch\?` of pattern 2. -/
def watchQMarker : List Char :=
  ['y', 'o', 'u', 't', 'u', 'b', 'e', '.', 'c', 'o', 'm', '/', 'w', 'a', 't', 'c', 'h', '?']

/-- Strip a literal marker from the front of the input; `none` if the input
does not start with the marker. -/
def stripMarker : List Char → List Char → Option (List Char)
  | [], l => some l
  | _ :: _, [] => none
  | a :: as, b :: bs => if a = b then stripMarker as bs else none

/-- Try one alternative of pattern 1 at the current position: the literal
marker followed by a greedy non-empty run of `[^&\n?#]` characters (the
capture group). -/
def tryAlt (marker l : List Char) : Option (List Char) :=
  match stripMarker marker l with
  | none => none
  | some rest =>
    let g := rest.takeWhile isIdChar
    if g.isEmpty then none else some g

/-- First-success choice between match attempts (regex alternation /
advancing the scan position). -/
def orTry (o fallback : Option (List Char)) : Option (List Char) :=
  match o with
  | some g => some g
  | none => fallback

/-- Pattern 1 matching: scan start positions left to right, trying the three
alternatives in the order they appear in the source regex. -/
def matchPattern1 : List Char → Option (List Char)
  | [] => none
  | c :: cs =>
    orTry (tryAlt watchMarker (c :: cs))
      (orTry (tryAlt beMarker (c :: cs))
        (orTry (tryAlt embedMarker (c :: cs)) (matchPattern1 cs)))

/-- The tail `.*v=([^&\n?#]+)` of pattern 2 after the literal head, with
greedy `.*`: prefer consuming the current character with `.*` (rightmost
`v=`), fall back to matching `v=` followed by a non-empty capture here.
`.` does not match a newline character. -/
def greedyVEq : List Char → Option (List Char)
  | [] => none
  | c :: cs =>
    match (if c = '\n' then none else greedyVEq cs) with
    | some g => some g
    | none =>
      if c = 'v' then
        match cs with
        | '=' :: d =>
          let g := d.takeWhile isIdChar
          if g.isEmpty then none else some g
        | _ => none
      else none

/-- Pattern 2 matching: scan start positions left to right; at each position
require the literal head `youtube.com/watch?` and then `.*v=([^&\n?#]+)`. -/
def matchPattern2 : List Char → Option (List Char)
  | [] => none
  | c :: cs =>
    match stripMarker watchQMarker (c :: cs) with
    | some rest =>
      match greedyVEq rest with
      | some g => some g
      | none => matchPattern2 cs
    | none => matchPattern2 cs

/-- `extractYouTubeId` from `VideoShowcase`: try pattern 1, then pattern 2;
return the capture group of the first pattern that matches, else `null`. -/
def extractYouTubeId (url : String) : Option String :=
  match matchPattern1 url.data with
  | some g => some ⟨g⟩
  | none =>
    match matchPattern2 url.data with
    | some g => some ⟨g⟩
    | none => none

/-! ## VideoShowcase: `VideoCard` rendering -/

/-- The `VideoItem` interface of `VideoShowcase`. -/
structure VideoItem where
  id : String
  title : String
  description : Option String
  url : String

/-- What `VideoCard` renders in place of the player: either the inline
error element or a YouTube iframe with a `src` attribute. -/
inductive CardView where
  | invalidUrl (message : String)
  | embedIframe (src : String) (frameTitle : String)
  deriving DecidableEq

/-- `VideoCard`: extract the video id from `video.url`; on `null` render the
inline error, otherwise the iframe with `src = https://www.youtube.com/embed/<id>`. -/
def VideoCard (video : VideoItem) : CardView :=
  match extractYouTubeId video.url with
  | none => .invalidUrl ("Invalid YouTube URL: " ++ video.url)
  | some videoId => .embedIframe ("https://www.youtube.com/embed/" ++ videoId) video.title

/-! ## VideoPlayer: analytics state machine

`VideoPlayer.tsx` keeps component-local state (`isPlaying`, `isPaused`,
`isMuted`, `isFullscreen`, `progress`) plus two refs used to deduplicate
analytics events: `trackedMilestonesRef` (a `Set<number>`) and
`hasTrackedPlayRef` (a boolean).  Each handler may emit analytics calls,
each being a Plausible track call paired with a GTM `dataLayer.push`.
We record the emitted calls in an event log.  JavaScript numbers read
from the media element (`currentTime`, `duration`) are modelled as
rationals; the computed progress `currentTime / duration * 100` and the
comparison `currentProgress >= milestone` are taken over `ℚ`.
-/

/-- Analytics calls emitted by the player: each Plausible event and each
GTM dataLayer push, by event name. -/
inductive AEvent where
  | PlausiblePlay
  | GtmVideoStart
  | PlausiblePause
  | GtmVideoPause
  | PlausibleProgress (milestone : ℕ)
  | GtmVideoProgress (milestone : ℕ)
  | PlausibleComplete
  | GtmVideoComplete
  deriving DecidableEq

/-- Component-local state of one `VideoPlayer` instance, plus the log of
analytics calls emitted so far (chronological order). -/
structure PlayerState where
  isPlaying : Bool
  isPaused : Bool
  isMuted : Bool
  isFullscreen : Bool
  progress : ℚ
  hasTrackedPlay : Bool
  trackedMilestones : List ℕ
  log : List AEvent

/-- The initial state on mount: all flags false, progress 0, empty
milestone set, nothing tracked, nothing emitted. -/
def initState : PlayerState :=
  { isPlaying := false, isPaused := false, isMuted := false, isFullscreen := false
    progress := 0, hasTrackedPlay := false, trackedMilestones := [], log := [] }

/-- `Set.add` on the milestone set (a no-op when already present). -/
def setAdd (m : ℕ) (l : List ℕ) : List ℕ :=
  if m ∈ l then l else m :: l

/-- `handlePlayClick` (poster play button): set `isPlaying`, start the
video, and—guarded by `hasTrackedPlayRef`—emit `Video Play` to Plausible
and `video_start` to the dataLayer, then set the guard. -/
def handlePlayClick (s : PlayerState) : PlayerState :=
  let s := { s with isPlaying := true }
  if s.hasTrackedPlay then s
  else
    { s with log := s.log ++ [.PlausiblePlay, .GtmVideoStart], hasTrackedPlay := true }

/-- `togglePlayPause`: branch on `videoRef.current.paused` (a property of
the media element, passed in as `videoPaused`).  Resume clears `isPaused`
and fires the play events if the `hasTrackedPlayRef` guard is unset;
pause sets `isPaused` and always fires the pause events. -/
def togglePlayPause (videoPaused : Bool) (s : PlayerState) : PlayerState :=
  if videoPaused then
    let s := { s with isPaused := false }
    if s.hasTrackedPlay then s
    else
      { s with log := s.log ++ [.PlausiblePlay, .GtmVideoStart], hasTrackedPlay := true }
  else
    { s with isPaused := true, log := s.log ++ [.PlausiblePause, .GtmVideoPause] }

/-- `toggleMute`: flip the muted flag of the media element and mirror it in state. -/
def toggleMute (s : PlayerState) : PlayerState :=
  { s with isMuted := !s.isMuted }

/-- One milestone iteration of the loop in `handleTimeUpdate`: if the
computed progress has reached the milestone and it is not yet in the
tracked set, add it to the set and emit the progress events. -/
def trackMilestone (currentProgress : ℚ) (s : PlayerState) (milestone : ℕ) : PlayerState :=
  if currentProgress ≥ (milestone : ℚ) ∧ milestone ∉ s.trackedMilestones then
    { s with trackedMilestones := setAdd milestone s.trackedMilestones
             log := s.log ++ [.PlausibleProgress milestone, .GtmVideoProgress milestone] }
  else s

/-- `handleTimeUpdate`: compute `currentProgress = currentTime / duration * 100`,
store it, and run the milestone loop over `[25, 50, 75]`. -/
def handleTimeUpdate (currentTime duration : ℚ) (s : PlayerState) : PlayerState :=
  let currentProgress := currentTime / duration * 100
  let s := { s with progress := currentProgress }
  [25, 50, 75].foldl (trackMilestone currentProgress) s

/-- `handleVideoEnded`: set `isPaused`, and—if `100` is not yet in the
tracked-milestones set—add it and emit the completion events. -/
def handleVideoEnded (s : PlayerState) : PlayerState :=
  let s := { s with isPaused := true }
  if 100 ∈ s.trackedMilestones then s
  else
    { s with trackedMilestones := setAdd 100 s.trackedMilestones
             log := s.log ++ [.PlausibleComplete, .GtmVideoComplete] }

/-- The DOM events a playback session can feed to the handlers.
`timeUpdate` carries the `currentTime` and `duration` of the media element;
`toggleClick` carries the `paused` property of the element at click time. -/
inductive PEvent where
  | playClick
  | toggleClick (videoPaused : Bool)
  | timeUpdate (currentTime duration : ℚ)
  | ended
  | muteClick
  deriving DecidableEq

/-- Dispatch one DOM event to its handler. -/
def stepEvent (s : PlayerState) : PEvent → PlayerState
  | .playClick => handlePlayClick s
  | .toggleClick videoPaused => togglePlayPause videoPaused s
  | .timeUpdate t d => handleTimeUpdate t d s
  | .ended => handleVideoEnded s
  | .muteClick => toggleMute s

/-- Run a session: fold a sequence of DOM events from the initial state. -/
def runEvents (es : List PEvent) : PlayerState :=
  es.foldl stepEvent initState

/-- A session consisting only of `timeupdate` events, each given by the
`(currentTime, duration)` pair read from the media element. -/
def runTimeUpdates (ps : List (ℚ × ℚ)) : PlayerState :=
  runEvents (ps.map fun td => PEvent.timeUpdate td.1 td.2)

/-- What the player area renders (line 205): the poster play button while
`!isPlaying`, the video element afterwards. -/
inductive PlayerArea where
  | posterButton
  | videoElement
  deriving DecidableEq

/-- The `!isPlaying ? <button …> : <video …>` branch of the JSX. -/
def renderPlayerArea (s : PlayerState) : PlayerArea :=
  if s.isPlaying then .videoElement else .posterButton

/-- Dedup invariant of the analytics log: each guarded event family has
been emitted exactly as often as its guard (the `hasTrackedPlayRef`
boolean, membership of `100`, membership of a milestone in the tracked
set) says. -/
def Inv (s : PlayerState) : Prop :=
  s.log.count AEvent.PlausiblePlay = (if s.hasTrackedPlay then 1 else 0) ∧
  s.log.count AEvent.GtmVideoStart = (if s.hasTrackedPlay then 1 else 0) ∧
  s.log.count AEvent.PlausibleComplete = (if 100 ∈ s.trackedMilestones then 1 else 0) ∧
  s.log.count AEvent.GtmVideoComplete = (if 100 ∈ s.trackedMilestones then 1 else 0) ∧
  (∀ m : ℕ, m ∈ ([25, 50, 75] : List ℕ) →
    s.log.count (AEvent.PlausibleProgress m) = (if m ∈ s.trackedMilestones then 1 else 0) ∧
    s.log.count (AEvent.GtmVideoProgress m) = (if m ∈ s.trackedMilestones then 1 else 0))

/-! ### Fullscreen toggle -/

/-- Resolution of the `requestFullscreen` / `exitFullscreen` promise. -/
inductive FsOutcome where
  | ok
  | err
  deriving DecidableEq

/-- `toggleFullscreen`: no-op without a container ref; otherwise branch on
`document.fullscreenElement`, await the request or exit call, and set
`isFullscreen` only after the await succeeds.  A rejection is caught and
logged via `console.error` with the message `Fullscreen error:`; the handler
always returns normally.  Returns the new state and the console output. -/
def toggleFullscreen (hasContainer fullscreenElement : Bool) (outcome : FsOutcome)
    (s : PlayerState) : PlayerState × List String :=
  if !hasContainer then (s, [])
  else if !fullscreenElement then
    match outcome with
    | .ok => ({ s with isFullscreen := true }, [])
    | .err => (s, ["Fullscreen error:"])
  else
    match outcome with
    | .ok => ({ s with isFullscreen := false }, [])
    | .err => (s, ["Fullscreen error:"])

/-! ### Poster preview (pre-play state)

Lines 212–226 of `VideoPlayer.tsx` pick the preview inside the poster
button with JavaScript truthiness tests on the optional string props:
`gifPath ? <img …gifPath…> : thumbnailPath ? <img …thumbnailPath…> : <div …/>`,
and `alt={title || "Video preview"}`.  An absent prop is `undefined`
(falsy); an empty string is also falsy.
-/

/-- JavaScript truthiness of an optional string prop. -/
def jsTruthy : Option String → Bool
  | none => false
  | some s => s ≠ ""

/-- JavaScript `a || b` on an optional string and a literal. -/
def jsOrElse (o : Option String) (dflt : String) : String :=
  match o with
  | some s => if s = "" then dflt else s
  | none => dflt

/-- What the poster preview renders. -/
inductive PosterView where
  | gifImg (src alt : String)
  | thumbImg (src alt : String)
  | placeholder
  deriving DecidableEq

/-- Is the preview the GIF image? -/
def PosterView.isGif : PosterView → Bool
  | .gifImg _ _ => true
  | _ => false

/-- The poster preview of `VideoPlayer` (pre-play): GIF if `gifPath` is
truthy, else thumbnail if `thumbnailPath` is truthy, else the fallback
`div`. -/
def posterPreview (gifPath thumbnailPath title : Option String) : PosterView :=
  if jsTruthy gifPath then
    .gifImg (gifPath.getD "") (jsOrElse title "Video preview")
  else if jsTruthy thumbnailPath then
    .thumbImg (thumbnailPath.getD "") (jsOrElse title "Video preview")
  else .placeholder

/-! ## Docs catch-all route (`app/docs/[[...slug]]/page.tsx`)

The route resolves a slug through `source.getPage` (the fumadocs loader
over `content/docs`, supplied here as a parameter of type
`List String → Option DocPage`).  On `undefined` both `Page` and
`generateMetadata` invoke Next.js `notFound()`, which aborts rendering;
otherwise `Page` renders the title, description and MDX body of the page, and
`generateMetadata` returns the title and description. -/

/-- The data of a resolved doc page used by the route. -/
structure DocPage where
  title : String
  description : String
  body : String

/-- Result of the `Page` function of the route: either `notFound()` was
invoked, or the page was rendered with its title, description and body. -/
inductive PageResult where
  | notFoundInvoked
  | rendered (title description body : String)
  deriving DecidableEq

/-- Result of `generateMetadata`. -/
inductive MetaResult where
  | notFoundInvoked
  | metadata (title description : String)
  deriving DecidableEq

/-- The default `Page` export of the route. -/
def docsRoutePage (getPage : List String → Option DocPage) (slug : List String) : PageResult :=
  match getPage slug with
  | none => .notFoundInvoked
  | some page => .rendered page.title page.description page.body

/-- The `generateMetadata` export of the route. -/
def docsGenerateMetadata (getPage : List String → Option DocPage) (slug : List String) : MetaResult :=
  match getPage slug with
  | none => .notFoundInvoked
  | some page => .metadata page.title page.description

/-! ## Page actions: `ViewOptions` (`components/ai/page-actions.tsx`)

`ViewOptions` builds a popover item list.  The first item links directly
to `githubUrl`; the AI-assistant items link to static bases with a
`URLSearchParams` query.  `fullMarkdownUrl` is
`new URL(markdownUrl, window.location.origin)` when `window` exists
(the literal string `loading` otherwise); URL resolution is a browser primitive, supplied
here as a parameter `resolveURL : String → String → String` applied to
the markdown URL and the window origin. -/

/-- The `href` of an item: a direct URL, or a base plus `URLSearchParams`
key-value pairs (in insertion order). -/
inductive ItemHref where
  | direct (url : String)
  | withQuery (base : String) (params : List (String × String))
  deriving DecidableEq

/-- One popover item of `ViewOptions`. -/
structure ActionItem where
  title : String
  href : ItemHref
  deriving DecidableEq

/-- The `items` list built in `ViewOptions` (icons omitted). -/
def viewOptionsItems (resolveURL : String → String → String) (hasWindow : Bool)
    (markdownUrl githubUrl origin : String) : List ActionItem :=
  let fullMarkdownUrl := if hasWindow then resolveURL markdownUrl origin else "loading"
  let q := "Read " ++ fullMarkdownUrl ++ ", I want to ask questions about it."
  [ { title := "Open in GitHub", href := .direct githubUrl },
    { title := "Open in ChatGPT",
      href := .withQuery "https://chatgpt.com/" [("hints", "search"), ("q", q)] },
    { title := "Open in Claude", href := .withQuery "https://claude.ai/new" [("q", q)] },
    { title := "Open in T3 Chat", href := .withQuery "https://t3.chat/new" [("q", q)] },
    { title := "Open in Scira AI", href := .withQuery "https://scira.ai/" [("q", q)] } ]

/-! ## Tracking hook: `trackEvent` (`hooks/usePlausibleTracking.ts`)

`trackEvent` builds an `eventData` object by conditionally inserting a
`props` key and a `revenue` key, then calls the `plausible` SDK function
once, passing `eventData` if it has at least one key and `undefined`
otherwise.  We model the object as its list of inserted keys (in
insertion order) and record the single SDK invocation. -/

/-- A value of the `PlausibleEventProps` index signature. -/
inductive PValue where
  | str (s : String)
  | num (q : ℚ)
  | undef
  deriving DecidableEq

/-- `PlausibleEventProps`: an object of string/number/undefined values. -/
def PlausibleEventProps : Type := List (String × PValue)

/-- `PlausibleRevenueData`. -/
structure PlausibleRevenueData where
  amount : ℚ
  currency : String

/-- A key of the `eventData` object with its value. -/
inductive EventDataField where
  | propsField (p : PlausibleEventProps)
  | revenueField (r : PlausibleRevenueData)

/-- One invocation of the `plausible` SDK function: the event name and
the options argument (`none` models passing `undefined`). -/
structure PlausibleCall where
  eventName : String
  options : Option (List EventDataField)

/-- `trackEvent`: returns the list of SDK invocations it performs. -/
def trackEvent (eventName : String) (props : Option PlausibleEventProps)
    (revenue : Option PlausibleRevenueData) : List PlausibleCall :=
  let eventData : List EventDataField := []
  let eventData := match props with
    | some p => eventData ++ [.propsField p]
    | none => eventData
  let eventData := match revenue with
    | some r => eventData ++ [.revenueField r]
    | none => eventData
  [{ eventName := eventName
     options := if eventData.length > 0 then some eventData else none }]

/-! ## Lemmas: `extractYouTubeId` -/

theorem string_data_append (s t : String) : (s ++ t).data = s.data ++ t.data := rfl

theorem stripMarker_self_append (p l : List Char) : stripMarker p (p ++ l) = some l := by
  induction p with
  | nil => rfl
  | cons a as ih => simp [stripMarker, ih]

theorem takeWhile_of_all (l : List Char) (h : l.all isIdChar = true) :
    l.takeWhile isIdChar = l := by
  induction l with
  | nil => rfl
  | cons c cs ih =>
    simp only [List.all_cons, Bool.and_eq_true] at h
    simp [List.takeWhile_cons, h.1, ih h.2]

theorem tryAlt_self_append (marker : List Char) (c : Char) (cs : List Char)
    (h : (c :: cs).all isIdChar = true) :
    tryAlt marker (marker ++ (c :: cs)) = some (c :: cs) := by
  unfold tryAlt
  rw [stripMarker_self_append]
  simp [takeWhile_of_all _ h]

theorem tryAlt_watch_be (l : List Char) : tryAlt watchMarker (beMarker ++ l) = none := rfl

theorem tryAlt_watch_embed (l : List Char) : tryAlt watchMarker (embedMarker ++ l) = none := rfl

theorem tryAlt_be_embed (l : List Char) : tryAlt beMarker (embedMarker ++ l) = none := rfl

theorem orTry_some (g : List Char) (f : Option (List Char)) : orTry (some g) f = some g := rfl

theorem orTry_none (f : Option (List Char)) : orTry none f = f := rfl

theorem matchPattern1_cons (c : Char) (cs : List Char) :
    matchPattern1 (c :: cs) =
      orTry (tryAlt watchMarker (c :: cs))
        (orTry (tryAlt beMarker (c :: cs))
          (orTry (tryAlt embedMarker (c :: cs)) (matchPattern1 cs))) := rfl

theorem matchPattern1_cons_watch (c : Char) (cs g : List Char)
    (h : tryAlt watchMarker (c :: cs) = some g) :
    matchPattern1 (c :: cs) = some g := by
  rw [matchPattern1_cons, h, orTry_some]

theorem matchPattern1_cons_be (c : Char) (cs g : List Char)
    (h1 : tryAlt watchMarker (c :: cs) = none)
    (h2 : tryAlt beMarker (c :: cs) = some g) :
    matchPattern1 (c :: cs) = some g := by
  rw [matchPattern1_cons, h1, orTry_none, h2, orTry_some]

theorem matchPattern1_cons_embed (c : Char) (cs g : List Char)
    (h1 : tryAlt watchMarker (c :: cs) = none)
    (h2 : tryAlt beMarker (c :: cs) = none)
    (h3 : tryAlt embedMarker (c :: cs) = some g) :
    matchPattern1 (c :: cs) = some g := by
  rw [matchPattern1_cons, h1, orTry_none, h2, orTry_none, h3, orTry_some]

theorem matchPattern1_watch_append (c : Char) (cs : List Char)
    (h : (c :: cs).all isIdChar = true) :
    matchPattern1 (watchMarker ++ (c :: cs)) = some (c :: cs) :=
  matchPattern1_cons_watch 'y'
    (['o', 'u', 't', 'u', 'b', 'e', '.', 'c', 'o', 'm', '/', 'w', 'a', 't', 'c', 'h', '?', 'v', '='] ++ (c :: cs))
    (c :: cs) (tryAlt_self_append watchMarker c cs h)

theorem matchPattern1_be_append (c : Char) (cs : List Char)
    (h : (c :: cs).all isIdChar = true) :
    matchPattern1 (beMarker ++ (c :: cs)) = some (c :: cs) :=
  matchPattern1_cons_be 'y'
    (['o', 'u', 't', 'u', '.', 'b', 'e', '/'] ++ (c :: cs))
    (c :: cs) (tryAlt_watch_be (c :: cs)) (tryAlt_self_append beMarker c cs h)

theorem matchPattern1_embed_append (c : Char) (cs : List Char)
    (h : (c :: cs).all isIdChar = true) :
    matchPattern1 (embedMarker ++ (c :: cs)) = some (c :: cs) :=
  matchPattern1_cons_embed 'y'
    (['o', 'u', 't', 'u', 'b', 'e', '.', 'c', 'o', 'm', '/', 'e', 'm', 'b', 'e', 'd', '/'] ++ (c :: cs))
    (c :: cs) (tryAlt_watch_embed (c :: cs)) (tryAlt_be_embed (c :: cs))
    (tryAlt_self_append embedMarker c cs h)

/-- C1: for every URL in one of the three YouTube formats
`youtube.com/watch?v=<id>`, `youtu.be/<id>`, `youtube.com/embed/<id>`
(the id a non-empty run of characters without `&`, `?`, `#` or newline),
`extractYouTubeId` returns that id; a string matched by neither pattern
yields `null`; in particular `extractYouTubeId "https://youtu.be/abc123XYZ"
= some "abc123XYZ"` and `extractYouTubeId "not-a-url" = none`. -/
theorem extractYouTubeId_formats (id : String) (hne : id ≠ "")
    (hgood : id.data.all isIdChar = true) :
    extractYouTubeId ("youtube.com/watch?v=" ++ id) = some id ∧
    extractYouTubeId ("youtu.be/" ++ id) = some id ∧
    extractYouTubeId ("youtube.com/embed/" ++ id) = some id ∧
    extractYouTubeId "https://youtu.be/abc123XYZ" = some "abc123XYZ" ∧
    extractYouTubeId "not-a-url" = none ∧
    (∀ s : String, matchPattern1 s.data = none → matchPattern2 s.data = none →
      extractYouTubeId s = none) := by
  obtain ⟨l⟩ := id
  cases l with
  | nil => exact absurd rfl hne
  | cons c cs =>
    refine ⟨?_, ?_, ?_, by decide, by decide, ?_⟩
    · have h1 := matchPattern1_watch_append c cs hgood
      simp only [extractYouTubeId]
      rw [show ("youtube.com/watch?v=" ++ (⟨c :: cs⟩ : String)).data
            = watchMarker ++ (c :: cs) from rfl, h1]
    · have h1 := matchPattern1_be_append c cs hgood
      simp only [extractYouTubeId]
      rw [show ("youtu.be/" ++ (⟨c :: cs⟩ : String)).data
            = beMarker ++ (c :: cs) from rfl, h1]
    · have h1 := matchPattern1_embed_append c cs hgood
      simp only [extractYouTubeId]
      rw [show ("youtube.com/embed/" ++ (⟨c :: cs⟩ : String)).data
            = embedMarker ++ (c :: cs) from rfl, h1]
    · intro s h1 h2
      simp [extractYouTubeId, h1, h2]

/-- Witness for C1 at the concrete id `"abc123XYZ"`. -/
theorem extractYouTubeId_formats_witness :
    extractYouTubeId ("youtube.com/watch?v=" ++ "abc123XYZ") = some "abc123XYZ" ∧
    extractYouTubeId ("youtu.be/" ++ "abc123XYZ") = some "abc123XYZ" ∧
    extractYouTubeId ("youtube.com/embed/" ++ "abc123XYZ") = some "abc123XYZ" :=
  have h := extractYouTubeId_formats "abc123XYZ" (by decide) (by decide)
  ⟨h.1, h.2.1, h.2.2.1⟩

/-! ## Lemmas: VideoPlayer analytics invariant -/

theorem inv_initState : Inv initState := by
  simp [Inv, initState]

theorem inv_handlePlayClick (s : PlayerState) (h : Inv s) : Inv (handlePlayClick s) := by
  obtain ⟨h1, h2, h3, h4, h5⟩ := h
  by_cases hp : s.hasTrackedPlay = true
  · have e : handlePlayClick s = { s with isPlaying := true } := by
      simp [handlePlayClick, hp]
    rw [e]
    exact ⟨h1, h2, h3, h4, h5⟩
  · have hp' : s.hasTrackedPlay = false := by simpa using hp
    have e : handlePlayClick s =
        { s with isPlaying := true
                 log := s.log ++ [AEvent.PlausiblePlay, AEvent.GtmVideoStart]
                 hasTrackedPlay := true } := by
      simp [handlePlayClick, hp']
    rw [e]
    refine ⟨?_, ?_, ?_, ?_, ?_⟩
    · simp [List.count_append, List.count_cons, h1, hp']
    · simp [List.count_append, List.count_cons, h2, hp']
    · simp [List.count_append, List.count_cons, h3]
    · simp [List.count_append, List.count_cons, h4]
    · intro m hm
      exact ⟨by simp [List.count_append, List.count_cons, (h5 m hm).1],
             by simp [List.count_append, List.count_cons, (h5 m hm).2]⟩

theorem inv_togglePlayPause (videoPaused : Bool) (s : PlayerState) (h : Inv s) :
    Inv (togglePlayPause videoPaused s) := by
  obtain ⟨h1, h2, h3, h4, h5⟩ := h
  by_cases hv : videoPaused = true
  · by_cases hp : s.hasTrackedPlay = true
    · have e : togglePlayPause videoPaused s = { s with isPaused := false } := by
        simp [togglePlayPause, hv, hp]
      rw [e]
      exact ⟨h1, h2, h3, h4, h5⟩
    · have hp' : s.hasTrackedPlay = false := by simpa using hp
      have e : togglePlayPause videoPaused s =
          { s with isPaused := false
                   log := s.log ++ [AEvent.PlausiblePlay, AEvent.GtmVideoStart]
                   hasTrackedPlay := true } := by
        simp [togglePlayPause, hv, hp']
      rw [e]
      refine ⟨?_, ?_, ?_, ?_, ?_⟩
      · simp [List.count_append, List.count_cons, h1, hp']
      · simp [List.count_append, List.count_cons, h2, hp']
      · simp [List.count_append, List.count_cons, h3]
      · simp [List.count_append, List.count_cons, h4]
      · intro m hm
        exact ⟨by simp [List.count_append, List.count_cons, (h5 m hm).1],
               by simp [List.count_append, List.count_cons, (h5 m hm).2]⟩
  · have hv' : videoPaused = false := by simpa using hv
    have e : togglePlayPause videoPaused s =
        { s with isPaused := true
                 log := s.log ++ [AEvent.PlausiblePause, AEvent.GtmVideoPause] } := by
      simp [togglePlayPause, hv']
    rw [e]
    refine ⟨?_, ?_, ?_, ?_, ?_⟩
    · simp [List.count_append, List.count_cons, h1]
    · simp [List.count_append, List.count_cons, h2]
    · simp [List.count_append, List.count_cons, h3]
    · simp [List.count_append, List.count_cons, h4]
    · intro m hm
      exact ⟨by simp [List.count_append, List.count_cons, (h5 m hm).1],
             by simp [List.count_append, List.count_cons, (h5 m hm).2]⟩

theorem inv_toggleMute (s : PlayerState) (h : Inv s) : Inv (toggleMute s) := by
  obtain ⟨h1, h2, h3, h4, h5⟩ := h
  exact ⟨h1, h2, h3, h4, h5⟩

theorem inv_trackMilestone (p : ℚ) (s : PlayerState) (m' : ℕ)
    (hm' : m' ∈ ([25, 50, 75] : List ℕ)) (h : Inv s) : Inv (trackMilestone p s m') := by
  obtain ⟨h1, h2, h3, h4, h5⟩ := h
  have hm'100 : m' ≠ 100 := by fin_cases hm' <;> decide
  have h100m : ¬(100 : ℕ) = m' := fun hx => hm'100 hx.symm
  by_cases hc : p ≥ (m' : ℚ) ∧ m' ∉ s.trackedMilestones
  · have e : trackMilestone p s m' =
        { s with trackedMilestones := m' :: s.trackedMilestones
                 log := s.log ++ [AEvent.PlausibleProgress m', AEvent.GtmVideoProgress m'] } := by
      simp [trackMilestone, hc, setAdd, hc.2]
    rw [e]
    refine ⟨?_, ?_, ?_, ?_, ?_⟩
    · simp [List.count_append, List.count_cons, h1]
    · simp [List.count_append, List.count_cons, h2]
    · simp [List.count_append, List.count_cons, h3, List.mem_cons, h100m]
    · simp [List.count_append, List.count_cons, h4, List.mem_cons, h100m]
    · intro m hm
      by_cases hmm : m = m'
      · subst hmm
        constructor
        · simp [List.count_append, List.count_cons, (h5 m hm).1, hc.2]
        · simp [List.count_append, List.count_cons, (h5 m hm).2, hc.2]
      · have hmm' : ¬m' = m := fun hx => hmm hx.symm
        constructor
        · simp [List.count_append, List.count_cons, (h5 m hm).1, List.mem_cons, hmm, hmm']
        · simp [List.count_append, List.count_cons, (h5 m hm).2, List.mem_cons, hmm, hmm']
  · have e : trackMilestone p s m' = s := by
      simp [trackMilestone, hc]
    rw [e]
    exact ⟨h1, h2, h3, h4, h5⟩

theorem inv_handleTimeUpdate (t d : ℚ) (s : PlayerState) (h : Inv s) :
    Inv (handleTimeUpdate t d s) := by
  obtain ⟨h1, h2, h3, h4, h5⟩ := h
  have h0 : Inv { s with progress := t / d * 100 } := ⟨h1, h2, h3, h4, h5⟩
  exact inv_trackMilestone _ _ 75 (by decide)
    (inv_trackMilestone _ _ 50 (by decide)
      (inv_trackMilestone _ _ 25 (by decide) h0))

theorem inv_handleVideoEnded (s : PlayerState) (h : Inv s) : Inv (handleVideoEnded s) := by
  obtain ⟨h1, h2, h3, h4, h5⟩ := h
  by_cases hc : 100 ∈ s.trackedMilestones
  · have e : handleVideoEnded s = { s with isPaused := true } := by
      simp [handleVideoEnded, hc]
    rw [e]
    exact ⟨h1, h2, h3, h4, h5⟩
  · have e : handleVideoEnded s =
        { s with isPaused := true
                 trackedMilestones := 100 :: s.trackedMilestones
                 log := s.log ++ [AEvent.PlausibleComplete, AEvent.GtmVideoComplete] } := by
      simp [handleVideoEnded, hc, setAdd]
    rw [e]
    refine ⟨?_, ?_, ?_, ?_, ?_⟩
    · simp [List.count_append, List.count_cons, h1]
    · simp [List.count_append, List.count_cons, h2]
    · simp [List.count_append, List.count_cons, h3, hc]
    · simp [List.count_append, List.count_cons, h4, hc]
    · intro m hm
      have hm100 : ¬m = 100 := by fin_cases hm <;> decide
      have hm100' : ¬(100 : ℕ) = m := fun hx => hm100 hx.symm
      constructor
      · simp [List.count_append, List.count_cons, (h5 m hm).1, List.mem_cons, hm100, hm100']
      · simp [List.count_append, List.count_cons, (h5 m hm).2, List.mem_cons, hm100, hm100']

theorem inv_stepEvent (s : PlayerState) (e : PEvent) (h : Inv s) : Inv (stepEvent s e) := by
  cases e with
  | playClick => exact inv_handlePlayClick s h
  | toggleClick vp => exact inv_togglePlayPause vp s h
  | timeUpdate t d => exact inv_handleTimeUpdate t d s h
  | ended => exact inv_handleVideoEnded s h
  | muteClick => exact inv_toggleMute s h

theorem inv_foldl (es : List PEvent) : ∀ s : PlayerState, Inv s → Inv (es.foldl stepEvent s) := by
  induction es with
  | nil => exact fun s h => h
  | cons e es ih => exact fun s h => ih (stepEvent s e) (inv_stepEvent s e h)

theorem inv_runEvents (es : List PEvent) : Inv (runEvents es) :=
  inv_foldl es initState inv_initState

/-! ## Lemmas: tracked-milestone membership -/

theorem mem_trackMilestone (p : ℚ) (s : PlayerState) (m m' : ℕ) :
    m ∈ (trackMilestone p s m').trackedMilestones ↔
      m ∈ s.trackedMilestones ∨ (m = m' ∧ (m' : ℚ) ≤ p) := by
  by_cases h1 : (m' : ℚ) ≤ p <;> by_cases h2 : m' ∈ s.trackedMilestones
  · simp only [trackMilestone, setAdd, ge_iff_le, h1, h2, not_true_eq_false, and_false,
      if_false, and_true]
    exact ⟨fun h => Or.inl h, fun h => h.elim id (fun hx => by rw [hx]; exact h2)⟩
  · simp only [trackMilestone, setAdd, ge_iff_le, h1, h2]
    simp only [not_false_eq_true, and_true, if_true, List.mem_cons, if_false]
    tauto
  · simp [trackMilestone, setAdd, h1, h2, ge_iff_le]
  · simp [trackMilestone, setAdd, h1, h2, ge_iff_le]

theorem mem_tracked_handleTimeUpdate (t d : ℚ) (s : PlayerState) (m : ℕ)
    (hm : m ∈ ([25, 50, 75] : List ℕ)) :
    m ∈ (handleTimeUpdate t d s).trackedMilestones ↔
      m ∈ s.trackedMilestones ∨ (m : ℚ) ≤ t / d * 100 := by
  have e : handleTimeUpdate t d s =
      trackMilestone (t / d * 100)
        (trackMilestone (t / d * 100)
          (trackMilestone (t / d * 100) { s with progress := t / d * 100 } 25) 50) 75 := rfl
  rw [e, mem_trackMilestone, mem_trackMilestone, mem_trackMilestone]
  have e2 : ({ s with progress := t / d * 100 } : PlayerState).trackedMilestones
      = s.trackedMilestones := rfl
  rw [e2]
  fin_cases hm <;> norm_num

theorem tracked_runTimeUpdates_aux (ps : List (ℚ × ℚ)) (m : ℕ)
    (hm : m ∈ ([25, 50, 75] : List ℕ)) :
    ∀ s : PlayerState,
      (m ∈ ((ps.map fun td => PEvent.timeUpdate td.1 td.2).foldl stepEvent s).trackedMilestones ↔
        m ∈ s.trackedMilestones ∨
          ps.any (fun td => decide ((m : ℚ) ≤ td.1 / td.2 * 100)) = true) := by
  induction ps with
  | nil => simp
  | cons td ps ih =>
    intro s
    simp only [List.map_cons, List.foldl_cons, List.any_cons]
    rw [ih (stepEvent s (.timeUpdate td.1 td.2))]
    rw [show stepEvent s (PEvent.timeUpdate td.1 td.2) = handleTimeUpdate td.1 td.2 s from rfl]
    rw [mem_tracked_handleTimeUpdate td.1 td.2 s m hm]
    simp only [Bool.or_eq_true, decide_eq_true_eq]
    tauto

theorem tracked_runTimeUpdates (ps : List (ℚ × ℚ)) (m : ℕ)
    (hm : m ∈ ([25, 50, 75] : List ℕ)) :
    m ∈ (runTimeUpdates ps).trackedMilestones ↔
      ps.any (fun td => decide ((m : ℚ) ≤ td.1 / td.2 * 100)) = true := by
  have h := tracked_runTimeUpdates_aux ps m hm initState
  simpa [runTimeUpdates, runEvents, initState] using h

/-- The milestone-progress count formula for pure `timeupdate` sessions. -/
theorem count_progress_runTimeUpdates (ps : List (ℚ × ℚ)) (m : ℕ)
    (hm : m ∈ ([25, 50, 75] : List ℕ)) :
    (runTimeUpdates ps).log.count (AEvent.PlausibleProgress m)
        = (if ps.any (fun td => decide ((m : ℚ) ≤ td.1 / td.2 * 100)) then 1 else 0) ∧
    (runTimeUpdates ps).log.count (AEvent.GtmVideoProgress m)
        = (if ps.any (fun td => decide ((m : ℚ) ≤ td.1 / td.2 * 100)) then 1 else 0) := by
  have hInv := inv_runEvents (ps.map fun td => PEvent.timeUpdate td.1 td.2)
  have h5 := hInv.2.2.2.2 m hm
  have hmem := tracked_runTimeUpdates ps m hm
  by_cases hany : ps.any (fun td => decide ((m : ℚ) ≤ td.1 / td.2 * 100)) = true
  · have : m ∈ (runTimeUpdates ps).trackedMilestones := hmem.mpr hany
    constructor
    · rw [show (runTimeUpdates ps) = runEvents (ps.map fun td => PEvent.timeUpdate td.1 td.2)
          from rfl] at this ⊢
      rw [h5.1, if_pos this, if_pos hany]
    · rw [show (runTimeUpdates ps) = runEvents (ps.map fun td => PEvent.timeUpdate td.1 td.2)
          from rfl] at this ⊢
      rw [h5.2, if_pos this, if_pos hany]
  · have hnot : m ∉ (runTimeUpdates ps).trackedMilestones := fun hx => hany (hmem.mp hx)
    constructor
    · rw [show (runTimeUpdates ps) = runEvents (ps.map fun td => PEvent.timeUpdate td.1 td.2)
          from rfl] at hnot ⊢
      rw [h5.1, if_neg hnot, if_neg hany]
    · rw [show (runTimeUpdates ps) = runEvents (ps.map fun td => PEvent.timeUpdate td.1 td.2)
          from rfl] at hnot ⊢
      rw [h5.2, if_neg hnot, if_neg hany]

/-! ## Lemmas: projections and monotonicity of the handlers -/

theorem trackMilestone_isPlaying (p : ℚ) (s : PlayerState) (m' : ℕ) :
    (trackMilestone p s m').isPlaying = s.isPlaying := by
  unfold trackMilestone
  split <;> rfl

theorem trackMilestone_hasTrackedPlay (p : ℚ) (s : PlayerState) (m' : ℕ) :
    (trackMilestone p s m').hasTrackedPlay = s.hasTrackedPlay := by
  unfold trackMilestone
  split <;> rfl

theorem handleTimeUpdate_isPlaying (t d : ℚ) (s : PlayerState) :
    (handleTimeUpdate t d s).isPlaying = s.isPlaying := by
  have e : handleTimeUpdate t d s =
      trackMilestone (t / d * 100)
        (trackMilestone (t / d * 100)
          (trackMilestone (t / d * 100) { s with progress := t / d * 100 } 25) 50) 75 := rfl
  rw [e, trackMilestone_isPlaying, trackMilestone_isPlaying, trackMilestone_isPlaying]

theorem handleTimeUpdate_hasTrackedPlay (t d : ℚ) (s : PlayerState) :
    (handleTimeUpdate t d s).hasTrackedPlay = s.hasTrackedPlay := by
  have e : handleTimeUpdate t d s =
      trackMilestone (t / d * 100)
        (trackMilestone (t / d * 100)
          (trackMilestone (t / d * 100) { s with progress := t / d * 100 } 25) 50) 75 := rfl
  rw [e, trackMilestone_hasTrackedPlay, trackMilestone_hasTrackedPlay,
    trackMilestone_hasTrackedPlay]

theorem stepEvent_isPlaying_mono (s : PlayerState) (e : PEvent) (h : s.isPlaying = true) :
    (stepEvent s e).isPlaying = true := by
  cases e with
  | playClick =>
    by_cases hp : s.hasTrackedPlay = true <;> simp [stepEvent, handlePlayClick, hp]
  | toggleClick vp =>
    by_cases hv : vp = true
    · by_cases hp : s.hasTrackedPlay = true <;>
        simp [stepEvent, togglePlayPause, hv, hp, h]
    · have hv' : vp = false := by simpa using hv
      simp [stepEvent, togglePlayPause, hv', h]
  | timeUpdate t d => rw [show stepEvent s (PEvent.timeUpdate t d) = handleTimeUpdate t d s
      from rfl, handleTimeUpdate_isPlaying]; exact h
  | ended =>
    by_cases hc : 100 ∈ s.trackedMilestones <;> simp [stepEvent, handleVideoEnded, hc, h]
  | muteClick => simpa [stepEvent, toggleMute] using h

theorem stepEvent_playClick_isPlaying (s : PlayerState) :
    (stepEvent s PEvent.playClick).isPlaying = true := by
  by_cases hp : s.hasTrackedPlay = true <;> simp [stepEvent, handlePlayClick, hp]

theorem isPlaying_foldl (es : List PEvent) :
    ∀ s : PlayerState, (PEvent.playClick ∈ es ∨ s.isPlaying = true) →
      (es.foldl stepEvent s).isPlaying = true := by
  induction es with
  | nil =>
    intro s h
    rcases h with h | h
    · simp at h
    · exact h
  | cons e es ih =>
    intro s h
    simp only [List.foldl_cons]
    apply ih
    rcases h with h | h
    · rcases List.mem_cons.mp h with h' | h'
      · right
        rw [← h']
        exact stepEvent_playClick_isPlaying s
      · left
        exact h'
    · right
      exact stepEvent_isPlaying_mono s e h

theorem mem_tracked_stepEvent (s : PlayerState) (e : PEvent) (m : ℕ)
    (h : m ∈ s.trackedMilestones) : m ∈ (stepEvent s e).trackedMilestones := by
  cases e with
  | playClick =>
    by_cases hp : s.hasTrackedPlay = true <;> simp [stepEvent, handlePlayClick, hp, h]
  | toggleClick vp =>
    by_cases hv : vp = true
    · by_cases hp : s.hasTrackedPlay = true <;>
        simp [stepEvent, togglePlayPause, hv, hp, h]
    · have hv' : vp = false := by simpa using hv
      simp [stepEvent, togglePlayPause, hv', h]
  | timeUpdate t d =>
    rw [show stepEvent s (PEvent.timeUpdate t d) = handleTimeUpdate t d s from rfl]
    rw [show handleTimeUpdate t d s =
        trackMilestone (t / d * 100)
          (trackMilestone (t / d * 100)
            (trackMilestone (t / d * 100) { s with progress := t / d * 100 } 25) 50) 75 from rfl]
    rw [mem_trackMilestone, mem_trackMilestone, mem_trackMilestone]
    exact Or.inl (Or.inl (Or.inl h))
  | ended =>
    by_cases hc : 100 ∈ s.trackedMilestones <;>
      simp [stepEvent, handleVideoEnded, hc, setAdd, h]
  | muteClick => simpa [stepEvent, toggleMute] using h

theorem stepEvent_ended_tracked100 (s : PlayerState) :
    100 ∈ (stepEvent s PEvent.ended).trackedMilestones := by
  by_cases hc : 100 ∈ s.trackedMilestones <;>
    simp [stepEvent, handleVideoEnded, hc, setAdd]

theorem tracked100_foldl (es : List PEvent) :
    ∀ s : PlayerState, (PEvent.ended ∈ es ∨ 100 ∈ s.trackedMilestones) →
      100 ∈ (es.foldl stepEvent s).trackedMilestones := by
  induction es with
  | nil =>
    intro s h
    rcases h with h | h
    · simp at h
    · exact h
  | cons e es ih =>
    intro s h
    simp only [List.foldl_cons]
    apply ih
    rcases h with h | h
    · rcases List.mem_cons.mp h with h' | h'
      · right
        rw [← h']
        exact stepEvent_ended_tracked100 s
      · left
        exact h'
    · right
      exact mem_tracked_stepEvent s e 100 h

/-! ## Lemmas: the guards freeze the guarded counts -/

theorem count_play_trackMilestone (p : ℚ) (s : PlayerState) (m' : ℕ) :
    (trackMilestone p s m').log.count AEvent.PlausiblePlay = s.log.count AEvent.PlausiblePlay ∧
    (trackMilestone p s m').log.count AEvent.GtmVideoStart = s.log.count AEvent.GtmVideoStart := by
  by_cases hc : p ≥ (m' : ℚ) ∧ m' ∉ s.trackedMilestones <;>
    simp [trackMilestone, hc, List.count_append, List.count_cons]

theorem count_play_handleTimeUpdate (t d : ℚ) (s : PlayerState) :
    (handleTimeUpdate t d s).log.count AEvent.PlausiblePlay = s.log.count AEvent.PlausiblePlay ∧
    (handleTimeUpdate t d s).log.count AEvent.GtmVideoStart
        = s.log.count AEvent.GtmVideoStart := by
  have e : handleTimeUpdate t d s =
      trackMilestone (t / d * 100)
        (trackMilestone (t / d * 100)
          (trackMilestone (t / d * 100) { s with progress := t / d * 100 } 25) 50) 75 := rfl
  rw [e]
  constructor
  · rw [(count_play_trackMilestone _ _ 75).1, (count_play_trackMilestone _ _ 50).1,
      (count_play_trackMilestone _ _ 25).1]
  · rw [(count_play_trackMilestone _ _ 75).2, (count_play_trackMilestone _ _ 50).2,
      (count_play_trackMilestone _ _ 25).2]

theorem count_play_stepEvent_of_tracked (s : PlayerState) (e : PEvent)
    (h : s.hasTrackedPlay = true) :
    (stepEvent s e).log.count AEvent.PlausiblePlay = s.log.count AEvent.PlausiblePlay ∧
    (stepEvent s e).log.count AEvent.GtmVideoStart = s.log.count AEvent.GtmVideoStart := by
  cases e with
  | playClick => simp [stepEvent, handlePlayClick, h]
  | toggleClick vp =>
    by_cases hv : vp = true
    · simp [stepEvent, togglePlayPause, hv, h]
    · have hv' : vp = false := by simpa using hv
      simp [stepEvent, togglePlayPause, hv', List.count_append, List.count_cons]
  | timeUpdate t d =>
    exact count_play_handleTimeUpdate t d s
  | ended =>
    by_cases hc : 100 ∈ s.trackedMilestones <;>
      simp [stepEvent, handleVideoEnded, hc, List.count_append, List.count_cons]
  | muteClick => simp [stepEvent, toggleMute]

theorem count_progress_trackMilestone_of_mem (p : ℚ) (s : PlayerState) (m m' : ℕ)
    (hmem : m ∈ s.trackedMilestones) :
    (trackMilestone p s m').log.count (AEvent.PlausibleProgress m)
        = s.log.count (AEvent.PlausibleProgress m) ∧
    m ∈ (trackMilestone p s m').trackedMilestones := by
  refine ⟨?_, (mem_trackMilestone p s m m').mpr (Or.inl hmem)⟩
  by_cases hc : p ≥ (m' : ℚ) ∧ m' ∉ s.trackedMilestones
  · have hmm' : ¬m' = m := by
      intro hx
      exact hc.2 (hx ▸ hmem)
    simp [trackMilestone, hc, List.count_append, List.count_cons, hmm']
  · simp [trackMilestone, hc]

theorem count_progress_handleTimeUpdate_of_mem (t d : ℚ) (s : PlayerState) (m : ℕ)
    (hmem : m ∈ s.trackedMilestones) :
    (handleTimeUpdate t d s).log.count (AEvent.PlausibleProgress m)
        = s.log.count (AEvent.PlausibleProgress m) := by
  have e : handleTimeUpdate t d s =
      trackMilestone (t / d * 100)
        (trackMilestone (t / d * 100)
          (trackMilestone (t / d * 100) { s with progress := t / d * 100 } 25) 50) 75 := rfl
  rw [e]
  have s0 : m ∈ ({ s with progress := t / d * 100 } : PlayerState).trackedMilestones := hmem
  have h25 := count_progress_trackMilestone_of_mem (t / d * 100) _ m 25 s0
  have h50 := count_progress_trackMilestone_of_mem (t / d * 100) _ m 50 h25.2
  have h75 := count_progress_trackMilestone_of_mem (t / d * 100) _ m 75 h50.2
  rw [h75.1, h50.1, h25.1]

/-- C2: within one playback session, over any sequence of `timeupdate`
events, each progress milestone (25, 50, 75) fires at most once: its
event count equals 1 exactly when the computed progress of some update
reached the milestone (so it fires the first time the threshold is
reached, and crossing it again — e.g. after seeking backwards — adds
nothing); once fired the milestone is in the tracked set, and a
milestone in the tracked set is suppressed on every later update. -/
theorem videoPlayer_milestones_once (ps : List (ℚ × ℚ)) (m : ℕ)
    (hm : m ∈ ([25, 50, 75] : List ℕ)) :
    (runTimeUpdates ps).log.count (AEvent.PlausibleProgress m)
        = (if ps.any (fun td => decide ((m : ℚ) ≤ td.1 / td.2 * 100)) then 1 else 0) ∧
    (runTimeUpdates ps).log.count (AEvent.GtmVideoProgress m)
        = (if ps.any (fun td => decide ((m : ℚ) ≤ td.1 / td.2 * 100)) then 1 else 0) ∧
    (∀ qs : List (ℚ × ℚ),
      (runTimeUpdates (ps ++ qs)).log.count (AEvent.PlausibleProgress m) ≤ 1) ∧
    (ps.any (fun td => decide ((m : ℚ) ≤ td.1 / td.2 * 100)) = true →
      m ∈ (runTimeUpdates ps).trackedMilestones) ∧
    (m ∈ (runTimeUpdates ps).trackedMilestones → ∀ t d : ℚ,
      (handleTimeUpdate t d (runTimeUpdates ps)).log.count (AEvent.PlausibleProgress m)
        = (runTimeUpdates ps).log.count (AEvent.PlausibleProgress m)) := by
  refine ⟨(count_progress_runTimeUpdates ps m hm).1,
    (count_progress_runTimeUpdates ps m hm).2, ?_, ?_, ?_⟩
  · intro qs
    rw [(count_progress_runTimeUpdates (ps ++ qs) m hm).1]
    split <;> omega
  · exact fun hany => (tracked_runTimeUpdates ps m hm).mpr hany
  · exact fun hmem t d => count_progress_handleTimeUpdate_of_mem t d _ m hmem

/-- Witness for C2: two `timeupdate` events both at 25% of the duration
fire the 25% milestone exactly once. -/
theorem videoPlayer_milestones_once_witness :
    (runTimeUpdates [((1 : ℚ), (4 : ℚ)), ((1 : ℚ), (4 : ℚ))]).log.count
        (AEvent.PlausibleProgress 25) = 1 := by
  have h := videoPlayer_milestones_once [((1 : ℚ), (4 : ℚ)), ((1 : ℚ), (4 : ℚ))] 25 (by decide)
  rw [h.1]
  norm_num

/-- C3: across one `VideoPlayer` session the play analytics pair
(`Video Play` to Plausible, `video_start` to the dataLayer) is emitted at
most once — its count equals the `hasTrackedPlayRef` guard — and once the
guard is set any further play or resume click (indeed any further event)
leaves the play counts unchanged; clicking play switches the rendered
area from the poster button to the video element, and no event ever
switches it back. -/
theorem videoPlayer_play_tracked_once (es : List PEvent) :
    (runEvents es).log.count AEvent.PlausiblePlay
        = (if (runEvents es).hasTrackedPlay then 1 else 0) ∧
    (runEvents es).log.count AEvent.PlausiblePlay ≤ 1 ∧
    (runEvents es).log.count AEvent.GtmVideoStart ≤ 1 ∧
    (PEvent.playClick ∈ es → renderPlayerArea (runEvents es) = PlayerArea.videoElement) ∧
    (∀ e : PEvent, (runEvents es).isPlaying = true →
      (stepEvent (runEvents es) e).isPlaying = true) ∧
    (∀ e : PEvent, (runEvents es).hasTrackedPlay = true →
      (stepEvent (runEvents es) e).log.count AEvent.PlausiblePlay
          = (runEvents es).log.count AEvent.PlausiblePlay ∧
      (stepEvent (runEvents es) e).log.count AEvent.GtmVideoStart
          = (runEvents es).log.count AEvent.GtmVideoStart) := by
  have hInv := inv_runEvents es
  refine ⟨hInv.1, ?_, ?_, ?_, ?_, ?_⟩
  · rw [hInv.1]
    split <;> omega
  · rw [hInv.2.1]
    split <;> omega
  · intro h
    have := isPlaying_foldl es initState (Or.inl h)
    simp [renderPlayerArea, runEvents] at this ⊢
    simp [this]
  · exact fun e h => stepEvent_isPlaying_mono _ e h
  · exact fun e h => count_play_stepEvent_of_tracked _ e h

/-- Witness for C3: a poster play click followed by a resume click emits
the play event once and leaves the video element rendered. -/
theorem videoPlayer_play_tracked_once_witness :
    (runEvents [PEvent.playClick, PEvent.toggleClick true]).log.count
        AEvent.PlausiblePlay ≤ 1 ∧
    renderPlayerArea (runEvents [PEvent.playClick, PEvent.toggleClick true])
        = PlayerArea.videoElement :=
  have h := videoPlayer_play_tracked_once [PEvent.playClick, PEvent.toggleClick true]
  ⟨h.2.1, h.2.2.2.1 (by decide)⟩

/-- C7: the completion pair (`Video Complete` to Plausible,
`video_complete` to the dataLayer) is emitted at most once per session:
`handleVideoEnded` fires it only when `100` is not yet in the tracked
set and inserts `100` when it fires, so once an `ended` event occurred
the count is exactly one, and a further `ended` event only sets
`isPaused`, changing nothing else. -/
theorem videoPlayer_complete_once (es : List PEvent) :
    (runEvents es).log.count AEvent.PlausibleComplete ≤ 1 ∧
    (runEvents es).log.count AEvent.GtmVideoComplete ≤ 1 ∧
    (PEvent.ended ∈ es →
      (runEvents es).log.count AEvent.PlausibleComplete = 1 ∧
      (runEvents es).log.count AEvent.GtmVideoComplete = 1 ∧
      100 ∈ (runEvents es).trackedMilestones) ∧
    (100 ∈ (runEvents es).trackedMilestones →
      stepEvent (runEvents es) PEvent.ended = { runEvents es with isPaused := true }) := by
  have hInv := inv_runEvents es
  refine ⟨?_, ?_, ?_, ?_⟩
  · rw [hInv.2.2.1]
    split <;> omega
  · rw [hInv.2.2.2.1]
    split <;> omega
  · intro h
    have hmem : 100 ∈ (runEvents es).trackedMilestones :=
      tracked100_foldl es initState (Or.inl h)
    exact ⟨by rw [hInv.2.2.1, if_pos hmem], by rw [hInv.2.2.2.1, if_pos hmem], hmem⟩
  · intro h
    simp [stepEvent, handleVideoEnded, h]

/-- Witness for C7: two consecutive `ended` events emit the completion
event exactly once. -/
theorem videoPlayer_complete_once_witness :
    (runEvents [PEvent.ended, PEvent.ended]).log.count AEvent.PlausibleComplete = 1 :=
  ((videoPlayer_complete_once [PEvent.ended, PEvent.ended]).2.2.1 (by decide)).1

/-- C4: `VideoCard` renders the inline error element exactly when
`extractYouTubeId video.url` is `null`; otherwise it renders an iframe
with `src = "https://www.youtube.com/embed/" ++ id`; it never renders
both. -/
theorem videoCard_error_or_embed (v : VideoItem) :
    (VideoCard v = CardView.invalidUrl ("Invalid YouTube URL: " ++ v.url) ↔
      extractYouTubeId v.url = none) ∧
    (∀ videoId : String, extractYouTubeId v.url = some videoId →
      VideoCard v
        = CardView.embedIframe ("https://www.youtube.com/embed/" ++ videoId) v.title) ∧
    (∀ msg src ft : String,
      ¬(VideoCard v = CardView.invalidUrl msg ∧ VideoCard v = CardView.embedIframe src ft)) := by
  cases h : extractYouTubeId v.url with
  | none =>
    have e : VideoCard v = CardView.invalidUrl ("Invalid YouTube URL: " ++ v.url) := by
      simp [VideoCard, h]
    refine ⟨by simp [e], ?_, ?_⟩
    · intro videoId hid
      exact Option.noConfusion hid
    · intro msg src ft hcontra
      rw [hcontra.1] at hcontra
      exact CardView.noConfusion hcontra.2
  | some videoId =>
    have e : VideoCard v
        = CardView.embedIframe ("https://www.youtube.com/embed/" ++ videoId) v.title := by
      simp [VideoCard, h]
    refine ⟨⟨fun he => ?_, fun hn => ?_⟩, ?_, ?_⟩
    · rw [e] at he
      exact CardView.noConfusion he
    · exact Option.noConfusion hn
    · intro id2 hid
      rw [Option.some.injEq] at hid
      rw [← hid]
      exact e
    · intro msg src ft hcontra
      rw [hcontra.1] at hcontra
      exact CardView.noConfusion hcontra.2

/-- Witness for C4: one invalid and one valid video item. -/
theorem videoCard_error_or_embed_witness :
    VideoCard ⟨"1", "T", none, "not-a-url"⟩
        = CardView.invalidUrl ("Invalid YouTube URL: " ++ "not-a-url") ∧
    VideoCard ⟨"2", "T2", none, "https://youtu.be/abc"⟩
        = CardView.embedIframe ("https://www.youtube.com/embed/" ++ "abc") "T2" :=
  ⟨(videoCard_error_or_embed ⟨"1", "T", none, "not-a-url"⟩).1.mpr (by decide),
   (videoCard_error_or_embed ⟨"2", "T2", none, "https://youtu.be/abc"⟩).2.1 "abc" (by decide)⟩

/-- C5: when the fullscreen request (or exit) promise rejects, the error
is caught and logged via `console.error` with message `Fullscreen error:`, the
handler returns normally with the state untouched — `isFullscreen` is
only set after a successful await — so after a failed entry attempt the
component remains non-fullscreen. -/
theorem toggleFullscreen_rejection (s : PlayerState) (hasContainer fullscreenElement : Bool) :
    (toggleFullscreen hasContainer fullscreenElement FsOutcome.err s).1 = s ∧
    (toggleFullscreen hasContainer fullscreenElement FsOutcome.err s).2
        = (if hasContainer then ["Fullscreen error:"] else []) ∧
    (s.isFullscreen = false →
      (toggleFullscreen hasContainer fullscreenElement FsOutcome.err s).1.isFullscreen
        = false) := by
  cases hasContainer <;> cases fullscreenElement <;>
    simp [toggleFullscreen]

/-- Witness for C5: a failed entry attempt from the initial state logs
the error and stays non-fullscreen. -/
theorem toggleFullscreen_rejection_witness :
    (toggleFullscreen true false FsOutcome.err initState).1.isFullscreen = false ∧
    (toggleFullscreen true false FsOutcome.err initState).2 = ["Fullscreen error:"] :=
  have h := toggleFullscreen_rejection initState true false
  ⟨h.2.2 (by decide), by rw [h.2.1]; simp⟩

/-- C6: for every slug on which `source.getPage` returns no page, both
the `Page` function of the route and `generateMetadata` invoke `notFound()`
(and render nothing); when a page is found, `notFound` is not invoked
and the title, description and body of the page are rendered. -/
theorem docsRoute_notFound (getPage : List String → Option DocPage) (slug : List String) :
    (getPage slug = none →
      docsRoutePage getPage slug = PageResult.notFoundInvoked ∧
      docsGenerateMetadata getPage slug = MetaResult.notFoundInvoked) ∧
    (∀ p : DocPage, getPage slug = some p →
      docsRoutePage getPage slug = PageResult.rendered p.title p.description p.body ∧
      docsRoutePage getPage slug ≠ PageResult.notFoundInvoked ∧
      docsGenerateMetadata getPage slug = MetaResult.metadata p.title p.description) := by
  constructor
  · intro h
    exact ⟨by simp [docsRoutePage, h], by simp [docsGenerateMetadata, h]⟩
  · intro p h
    refine ⟨by simp [docsRoutePage, h], ?_, by simp [docsGenerateMetadata, h]⟩
    simp [docsRoutePage, h]

/-- Witness for C6: a resolver that knows a single page 404s on a
missing slug and renders the page on the known slug. -/
theorem docsRoute_notFound_witness :
    docsRoutePage (fun _ => none) ["missing"] = PageResult.notFoundInvoked ∧
    docsRoutePage (fun _ => some ⟨"t", "d", "b"⟩) ["known"]
        = PageResult.rendered "t" "d" "b" :=
  ⟨((docsRoute_notFound (fun _ => none) ["missing"]).1 rfl).1,
   ((docsRoute_notFound (fun _ => some ⟨"t", "d", "b"⟩) ["known"]).2 ⟨"t", "d", "b"⟩ rfl).1⟩

/-- C8: each AI-assistant item built by `ViewOptions` (ChatGPT, Claude,
T3 Chat, Scira AI) carries the query parameter `q` equal to
`Read <full markdown URL>, I want to ask questions about it.` where the
full markdown URL is `markdownUrl` resolved against the window origin;
the GitHub item links directly to `githubUrl`. -/
theorem viewOptions_links (resolveURL : String → String → String)
    (markdownUrl githubUrl origin : String) :
    (viewOptionsItems resolveURL true markdownUrl githubUrl origin).length = 5 ∧
    (viewOptionsItems resolveURL true markdownUrl githubUrl origin)[0]?
        = some ⟨"Open in GitHub", .direct githubUrl⟩ ∧
    (viewOptionsItems resolveURL true markdownUrl githubUrl origin)[1]?
        = some ⟨"Open in ChatGPT", .withQuery "https://chatgpt.com/"
            [("hints", "search"),
             ("q", "Read " ++ resolveURL markdownUrl origin
                ++ ", I want to ask questions about it.")]⟩ ∧
    (viewOptionsItems resolveURL true markdownUrl githubUrl origin)[2]?
        = some ⟨"Open in Claude", .withQuery "https://claude.ai/new"
            [("q", "Read " ++ resolveURL markdownUrl origin
                ++ ", I want to ask questions about it.")]⟩ ∧
    (viewOptionsItems resolveURL true markdownUrl githubUrl origin)[3]?
        = some ⟨"Open in T3 Chat", .withQuery "https://t3.chat/new"
            [("q", "Read " ++ resolveURL markdownUrl origin
                ++ ", I want to ask questions about it.")]⟩ ∧
    (viewOptionsItems resolveURL true markdownUrl githubUrl origin)[4]?
        = some ⟨"Open in Scira AI", .withQuery "https://scira.ai/"
            [("q", "Read " ++ resolveURL markdownUrl origin
                ++ ", I want to ask questions about it.")]⟩ ∧
    (∀ item ∈ (viewOptionsItems resolveURL true markdownUrl githubUrl origin).drop 1,
      ∃ base params, item.href = ItemHref.withQuery base params ∧
        ("q", "Read " ++ resolveURL markdownUrl origin
            ++ ", I want to ask questions about it.") ∈ params) := by
  refine ⟨rfl, rfl, rfl, rfl, rfl, rfl, ?_⟩
  intro item hitem
  simp only [viewOptionsItems, List.drop, List.mem_cons, List.not_mem_nil, or_false] at hitem
  rcases hitem with rfl | rfl | rfl | rfl <;>
    exact ⟨_, _, rfl, by simp⟩

/-- Witness for C8 at a concrete resolver, markdown URL and origin. -/
theorem viewOptions_links_witness :
    (viewOptionsItems (fun u o => o ++ u) true "/docs/x.md" "https://github.com/x"
        "https://motia.dev")[1]?
      = some ⟨"Open in ChatGPT", .withQuery "https://chatgpt.com/"
          [("hints", "search"),
           ("q", "Read https://motia.dev/docs/x.md, I want to ask questions about it.")]⟩ ∧
    (viewOptionsItems (fun u o => o ++ u) true "/docs/x.md" "https://github.com/x"
        "https://motia.dev")[0]?
      = some ⟨"Open in GitHub", .direct "https://github.com/x"⟩ :=
  have h := viewOptions_links (fun u o => o ++ u) "/docs/x.md" "https://github.com/x"
    "https://motia.dev"
  ⟨h.2.2.1, h.2.1⟩

/-- C9: `trackEvent` invokes the `plausible` SDK function exactly once,
with the given event name and an options object holding exactly the
provided fields — no `props`/`revenue` key is ever present for an absent
argument, and `undefined` is passed when both are absent. -/
theorem trackEvent_options (eventName : String) (props : Option PlausibleEventProps)
    (revenue : Option PlausibleRevenueData) :
    trackEvent eventName props revenue =
      [{ eventName := eventName
         options :=
           match props, revenue with
           | none, none => none
           | some p, none => some [.propsField p]
           | none, some r => some [.revenueField r]
           | some p, some r => some [.propsField p, .revenueField r] }] ∧
    (trackEvent eventName props revenue).length = 1 := by
  refine ⟨?_, ?_⟩ <;> cases props <;> cases revenue <;> rfl

/-- C10 counterexample: with `gifPath` provided as the empty string and a
thumbnail provided, the poster shows the thumbnail, not the GIF. -/
theorem posterPreview_gif_counterexample :
    posterPreview (some "") (some "thumb.png") none
        = PosterView.thumbImg "thumb.png" "Video preview" ∧
    (posterPreview (some "") (some "thumb.png") none).isGif = false := by decide

/-- C10 (amended): the poster preview precedence is GIF over thumbnail
over placeholder under JavaScript truthiness: the GIF image is shown
whenever `gifPath` is provided non-empty (even if `thumbnailPath` is also
provided), the thumbnail only when `gifPath` is absent or empty and
`thumbnailPath` is provided non-empty, and the plain placeholder `div`
when both are absent or empty. -/
theorem posterPreview_precedence (gifPath thumbnailPath title : Option String) :
    (∀ g : String, gifPath = some g → g ≠ "" →
      posterPreview gifPath thumbnailPath title
        = PosterView.gifImg g (jsOrElse title "Video preview")) ∧
    (jsTruthy gifPath = false → ∀ t : String, thumbnailPath = some t → t ≠ "" →
      posterPreview gifPath thumbnailPath title
        = PosterView.thumbImg t (jsOrElse title "Video preview")) ∧
    (jsTruthy gifPath = false → jsTruthy thumbnailPath = false →
      posterPreview gifPath thumbnailPath title = PosterView.placeholder) := by
  refine ⟨?_, ?_, ?_⟩
  · intro g hg hne
    subst hg
    simp [posterPreview, jsTruthy, hne]
  · intro hg t ht hne
    subst ht
    unfold posterPreview
    rw [hg]
    simp [jsTruthy, hne]
  · intro hg ht
    simp [posterPreview, hg, ht]

/-- Witness for C10 (amended): a non-empty GIF path wins over a
non-empty thumbnail. -/
theorem posterPreview_precedence_witness :
    posterPreview (some "a.gif") (some "b.png") none
        = PosterView.gifImg "a.gif" (jsOrElse none "Video preview") :=
  (posterPreview_precedence (some "a.gif") (some "b.png") none).1 "a.gif" rfl (by decide)

end MotiaDocs
